import Mathlib

/-!
Verification of the pgtuner_mcp tool handlers.

This file gives a shallow embedding, in Lean 4, of the pure computational
content of the tool handlers found under `src/pgtuner_mcp/tools/`:

* `tools_performance.py` — slow-query retrieval (`GetSlowQueriesToolHandler`)
  and plan analysis (`AnalyzeQueryToolHandler._analyze_node`);
* `tools_index.py` — index-recommendation selection
  (`IndexAdvisorToolHandler.run_tool`) and EXPLAIN with hypothetical
  indexes (`ExplainQueryToolHandler.run_tool`);
* `tools_query_rewrite.py` — the NULL-comparison anti-pattern check
  (`QueryRewriteSuggestionsToolHandler._check_null_comparisons`);
* `tools_query_history.py` — the query-plan history store
  (`_generate_query_hash`, `_store_plan`, `_get_plans`, `_compare_plans`).

Python dictionaries with a fixed shape become Lean structures, missing keys
become `Option`, floats become `ℚ`, and database round trips become explicit
parameters (row lists, outcome oracles).  The few operations of the
`HypoPGService` whose implementation is not part of the sources here are
modelled from the specification and are marked as such in their doc comments.
-/

set_option maxRecDepth 20000

namespace PgTuner

/-! ### Python string helpers

`str.split()` with no argument splits on runs of ASCII whitespace and drops
empty pieces; `" ".join(...)` re-joins with single blanks.  These two are the
whitespace normalization used in several handlers. -/

/-- The characters Python's `str.split()` (no argument) treats as whitespace
(ASCII subset). -/
def pySpace (c : Char) : Bool :=
  c = ' ' || c = '\t' || c = '\n' || c = '\r' || c = '\x0b' || c = '\x0c'

/-- Tokenizer underlying Python `str.split()`: walk the characters,
accumulating the current token in reverse, splitting on whitespace runs
and dropping empty pieces. -/
def wsTokensAux (cur : List Char) : List Char → List (List Char)
  | [] => if cur.isEmpty then [] else [cur.reverse]
  | c :: cs =>
    if pySpace c then
      if cur.isEmpty then wsTokensAux [] cs
      else cur.reverse :: wsTokensAux [] cs
    else wsTokensAux (c :: cur) cs

/-- `s.split()` in Python: split on whitespace runs, dropping empty pieces. -/
def pyTokens (s : String) : List String :=
  (wsTokensAux [] s.toList).map String.mk

/-- `" ".join(s.split())`: whitespace-collapsed form of `s`. -/
def normalizeWhitespaceJoin (s : String) : String :=
  " ".intercalate (pyTokens s)

/-! ### GetSlowQueriesToolHandler (tools_performance.py)

`run_tool` maps the caller's `order_by` through a fixed whitelist dictionary,
probes for the `pg_stat_statements` extension, and returns one of three
results: an extension-missing message, a no-rows message, or the JSON
output.  The probe result (one row with an `available` column, or nothing)
is modelled as `Option Bool`; the statistics rows are opaque. -/

/-- `order_map` of `GetSlowQueriesToolHandler.run_tool`: the whitelist
dictionary mapping caller values to SQL column names. -/
def orderMap (k : String) : Option String :=
  if k = "mean_time" then some ("mean_exec_time")
  else if k = "calls" then some ("calls")
  else if k = "rows" then some ("rows")
  else none

/-- The `order_by` validation of `run_tool`: values outside the whitelist
fall back to `"mean_time"`, then the dictionary is applied.  The `getD`
branch is unreachable (the fallback key is in the dictionary). -/
def resolveOrderColumn (orderBy : String) : String :=
  let ob := if (orderMap orderBy).isSome then orderBy else ("mean_time")
  (orderMap ob).getD ("mean_exec_time")

/-- The literal extension-missing message of `run_tool`. -/
def extMissingMessage : String :=
  "Error: pg_stat_statements extension is not installed.\nInstall it with: CREATE EXTENSION pg_stat_statements;\nNote: You may need to add it to shared_preload_libraries in postgresql.conf"

/-- The literal no-rows message of `run_tool`. -/
def noSlowQueriesMessage : String :=
  "No slow queries found matching the criteria.\nThis could mean:\n- pg_stat_statements has been recently reset\n- No queries exceed the minimum thresholds\n- The database has low query activity"

/-- The JSON payload assembled by `run_tool` on the success path. -/
structure SlowQueriesOutput (ρ : Type) where
  totalQueriesReturned : Nat
  minCalls : Int
  minMeanTimeMs : ℚ
  orderBy : String
  slowQueries : List ρ
  deriving Repr

/-- A tool result: either a plain text message (`format_result`) or the
JSON payload (`format_json_result`). -/
inductive SlowQueriesResult (ρ : Type) where
  | message (text : String)
  | json (output : SlowQueriesOutput ρ)
  deriving Repr

/-- `GetSlowQueriesToolHandler.run_tool` after the two database round trips:
`checkResult` is the extension probe (`none` for an empty result set,
`some b` for one row with `available = b`), `rows` the statistics rows. -/
def getSlowQueries (checkResult : Option Bool) (rows : List ρ)
    (minCalls : Int) (minMeanTimeMs : ℚ) (orderBy : String) :
    SlowQueriesResult ρ :=
  if checkResult.getD false = false then
    .message extMissingMessage
  else if rows.isEmpty then
    .message noSlowQueriesMessage
  else
    .json { totalQueriesReturned := rows.length
            minCalls := minCalls
            minMeanTimeMs := minMeanTimeMs
            orderBy := orderBy
            slowQueries := rows }

/-! ### Query plan trees

EXPLAIN (FORMAT JSON) plan nodes as consumed by
`AnalyzeQueryToolHandler._analyze_node` and
`ExplainQueryToolHandler._extract_cost`.  A node is a dictionary whose
relevant keys are modelled as `Option` fields; children live under the
`Plans` key. -/

/-- The fields of one plan node that the analyzed code reads. -/
structure NodeInfo where
  nodeType : Option String
  relationName : Option String
  filterCond : Option String
  actualRows : Option Int
  planRows : Option Int
  hashBatches : Option Int
  sortMethod : Option String
  actualLoops : Option Int
  totalCost : Option ℚ
  deriving Repr, DecidableEq

/-- A plan tree: node fields plus the list under the `Plans` key. -/
inductive PlanNode where
  | mk (info : NodeInfo) (children : List PlanNode)
  deriving Repr

/-- The node fields of a plan tree root. -/
def PlanNode.info : PlanNode → NodeInfo
  | .mk i _ => i

/-- The children (the `Plans` key) of a plan tree root. -/
def PlanNode.children : PlanNode → List PlanNode
  | .mk _ c => c

/-- `pat in s` on Python strings: substring containment. -/
def strContains (s pat : String) : Bool :=
  decide (pat.toList <:+: s.toList)

/-- The warnings `_analyze_node` can append, with the data interpolated
into the corresponding f-string. -/
inductive Warning where
  | seqScan (table : String) (rows : Int)
  | rowMismatch (nodeType : String) (planned actual : Int)
  | hashSpill (nodeType : String) (batches : Int)
  | sortSpill (method : String)
  | nestedLoop (loops : Int)
  deriving Repr, DecidableEq

/-- First `if` block of `_analyze_node`: sequential scan above the row
threshold (rows taken from `Actual Rows`, else `Plan Rows`, else 0).
The accompanying index recommendation goes to the separate
`recommendations` list and is not a warning. -/
def seqScanWarnings (i : NodeInfo) : List Warning :=
  if i.nodeType.getD ("Unknown") = "Seq Scan" ∧
      i.actualRows.getD (i.planRows.getD 0) > 10000 then
    [.seqScan (i.relationName.getD ("unknown"))
      (i.actualRows.getD (i.planRows.getD 0))]
  else []

/-- Second block: actual/planned row-count mismatch; the division is
guarded by both keys being present and planned rows being positive. -/
def ratioWarnings (i : NodeInfo) : List Warning :=
  match i.actualRows, i.planRows with
  | some ar, some pr =>
    if pr > 0 ∧ ((ar : ℚ) / (pr : ℚ) > 10 ∨ (ar : ℚ) / (pr : ℚ) < 1/10) then
      [.rowMismatch (i.nodeType.getD ("Unknown")) pr ar]
    else []
  | _, _ => []

/-- Third block: a node whose type contains `Hash` reporting more than
one hash batch. -/
def hashWarnings (i : NodeInfo) : List Warning :=
  if strContains (i.nodeType.getD ("Unknown")) ("Hash") ∧
      i.hashBatches.getD 1 > 1 then
    [.hashSpill (i.nodeType.getD ("Unknown")) (i.hashBatches.getD 1)]
  else []

/-- Fourth block: a `Sort` node whose sort method contains `external`
(lower-cased). -/
def sortWarnings (i : NodeInfo) : List Warning :=
  if i.nodeType.getD ("Unknown") = "Sort" ∧
      strContains (i.sortMethod.getD ("")).toLower ("external") then
    [.sortSpill (i.sortMethod.getD (""))]
  else []

/-- Fifth block: a `Nested Loop` node with more than 1000 actual loops. -/
def loopWarnings (i : NodeInfo) : List Warning :=
  if i.nodeType.getD ("Unknown") = "Nested Loop" ∧ i.actualLoops.getD 1 > 1000 then
    [.nestedLoop (i.actualLoops.getD 1)]
  else []

/-- The warnings `_analyze_node` appends for a single node: its five
`if` blocks in program order. -/
def nodeWarnings (i : NodeInfo) : List Warning :=
  seqScanWarnings i ++ ratioWarnings i ++ hashWarnings i ++
    sortWarnings i ++ loopWarnings i

mutual

/-- `AnalyzeQueryToolHandler._analyze_node`: the warnings emitted for a
node, then recursively for every child under `Plans`. -/
def analyzeNode : PlanNode → List Warning
  | .mk i children => nodeWarnings i ++ analyzeNodeList children

/-- The warnings emitted by the recursive calls over a `Plans` list. -/
def analyzeNodeList : List PlanNode → List Warning
  | [] => []
  | n :: ns => analyzeNode n ++ analyzeNodeList ns

end

/-! Specification-side reading of the plan-analysis claim: the five warning
conditions, stated per node, and their count over the tree.  The theorem
`analyze_node_emits_warnings_exactly_for_flagged_conditions` relates this
to `analyzeNode`. -/

/-- Claim condition 1: a `Seq Scan` node whose row count (actual rows,
else planned rows, else 0) exceeds 10000. -/
def seqScanFlag (i : NodeInfo) : Bool :=
  i.nodeType.getD ("Unknown") = "Seq Scan" &&
    i.actualRows.getD (i.planRows.getD 0) > 10000

/-- Claim condition 2: actual-to-planned row ratio above 10 or below 0.1,
evaluated only when both counts are present and planned rows is positive. -/
def rowRatioFlag (i : NodeInfo) : Bool :=
  match i.actualRows, i.planRows with
  | some ar, some pr =>
    pr > 0 && ((ar : ℚ) / (pr : ℚ) > 10 || (ar : ℚ) / (pr : ℚ) < 1/10)
  | _, _ => false

/-- Claim condition 3: a hash node (node type containing `Hash`)
reporting more than one batch. -/
def hashBatchesFlag (i : NodeInfo) : Bool :=
  strContains (i.nodeType.getD ("Unknown")) ("Hash") && i.hashBatches.getD 1 > 1

/-- Claim condition 4: a `Sort` node reporting an external sort method. -/
def externalSortFlag (i : NodeInfo) : Bool :=
  i.nodeType.getD ("Unknown") = "Sort" &&
    strContains (i.sortMethod.getD ("")).toLower ("external")

/-- Claim condition 5: a `Nested Loop` node with more than 1000 actual
loops. -/
def nestedLoopFlag (i : NodeInfo) : Bool :=
  i.nodeType.getD ("Unknown") = "Nested Loop" && i.actualLoops.getD 1 > 1000

/-- How many of the five claim conditions a single node satisfies. -/
def flaggedConditionCount (i : NodeInfo) : Nat :=
  (if seqScanFlag i then 1 else 0) + (if rowRatioFlag i then 1 else 0) +
    (if hashBatchesFlag i then 1 else 0) + (if externalSortFlag i then 1 else 0) +
    (if nestedLoopFlag i then 1 else 0)

mutual

/-- Total number of satisfied claim conditions over a plan tree. -/
def flaggedCount : PlanNode → Nat
  | .mk i children => flaggedConditionCount i + flaggedCountList children

/-- Total number of satisfied claim conditions over a list of plan trees. -/
def flaggedCountList : List PlanNode → Nat
  | [] => 0
  | n :: ns => flaggedCount n + flaggedCountList ns

end

/-! ### ExplainQueryToolHandler (tools_index.py)

The improvement computation of `run_tool`: costs are extracted from the
plans with `_extract_cost`, and when the original cost is positive the
output carries `estimated_improvement_percent` rounded to two decimals
with Python's `round` (banker's rounding). -/

/-- `_extract_cost`: `Total Cost` of the plan, `0.0` when the plan is
empty or the key absent. -/
def extractCost : Option PlanNode → ℚ
  | none => 0
  | some n => n.info.totalCost.getD 0

/-- Python's `round` to an integer: round half to even. -/
def pyRoundInt (q : ℚ) : ℤ :=
  if q - ⌊q⌋ < 1/2 then ⌊q⌋
  else if q - ⌊q⌋ > 1/2 then ⌊q⌋ + 1
  else if ⌊q⌋ % 2 = 0 then ⌊q⌋ else ⌊q⌋ + 1

/-- Python's `round(x, 2)`. -/
def pyRound2 (q : ℚ) : ℚ :=
  (pyRoundInt (q * 100) : ℚ) / 100

/-- The `estimated_improvement_percent` field computed by
`ExplainQueryToolHandler.run_tool` from the two extracted costs: present
(and rounded to two decimals) only when the original cost is positive. -/
def improvementField (originalCost newCost : ℚ) : Option ℚ :=
  if originalCost > 0 then
    some (pyRound2 ((originalCost - newCost) / originalCost * 100))
  else none

/-- The improvement field as produced from the two plans of an
`explain_with_indexes` call. -/
def explainImprovement (originalPlan planWithIndexes : Option PlanNode) : Option ℚ :=
  improvementField (extractCost originalPlan) (extractCost planWithIndexes)

/-! ### IndexAdvisorToolHandler (tools_index.py)

`run_tool` filters the gathered recommendation dictionaries by the
caller's minimum improvement, sorts them by improvement descending with
Python's stable `list.sort`, truncates to the caller's cap, and attaches
an explanatory message when the final list is empty. -/

/-- A recommendation dictionary as consumed by the selection step.  The
improvement key may be absent (`r.get(..., 0)` is used); the estimated
size and identifying fields are carried but never read by the selection
code. -/
structure Recommendation where
  table : String
  columns : List String
  estimatedImprovementPercent : Option ℚ
  estimatedSizeBytes : ℚ
  deriving Repr, DecidableEq

/-- `r.get("estimated_improvement_percent", 0)`. -/
def improvementKey (r : Recommendation) : ℚ :=
  r.estimatedImprovementPercent.getD 0

/-- Stable insertion (descending by `improvementKey`): the inserted
element, which precedes the list's elements in the original order, is
placed before the first element whose key is not larger. -/
def insertByImprovementDesc (r : Recommendation) :
    List Recommendation → List Recommendation
  | [] => [r]
  | x :: xs =>
    if improvementKey r < improvementKey x then x :: insertByImprovementDesc r xs
    else r :: x :: xs

/-- `recommendations.sort(key=..., reverse=True)`: Python's sort is
stable, so its result is the unique stable descending ordering, here
realized as a stable insertion sort. -/
def sortByImprovementDesc (l : List Recommendation) : List Recommendation :=
  l.foldr insertByImprovementDesc []

/-- The selection step of `IndexAdvisorToolHandler.run_tool`: filter by
the caller's minimum improvement, sort by improvement descending, cap at
`maxRecommendations`. -/
def selectRecommendations (minImprovement : ℚ) (maxRecommendations : Nat)
    (allRecommendations : List Recommendation) : List Recommendation :=
  ((allRecommendations.filter
      (fun r => improvementKey r ≥ minImprovement)).foldr
    insertByImprovementDesc []).take maxRecommendations

/-- The literal message attached by `run_tool` when no recommendation
survives selection. -/
def advisorNoRecsMessage : String :=
  "No index recommendations found. This could mean:\n- Your database already has optimal indexes\n- Not enough query data in pg_stat_statements\n- The improvement threshold is too high"

/-- The output dictionary assembled by `IndexAdvisorToolHandler.run_tool`
(summary counts, the recommendations, and the optional message). -/
structure AdvisorOutput where
  totalRecommendations : Nat
  hypopgAvailable : Bool
  recommendations : List Recommendation
  message : Option String
  deriving Repr, DecidableEq

/-- `IndexAdvisorToolHandler.run_tool` from the gathered recommendation
list onwards (collection from queries or pg_stat_statements, and the
target-table filter, happen before this point). -/
def runIndexAdvisor (minImprovement : ℚ) (maxRecommendations : Nat)
    (allRecommendations : List Recommendation) (hypopgAvailable : Bool) :
    AdvisorOutput :=
  let recommendations :=
    selectRecommendations minImprovement maxRecommendations allRecommendations
  { totalRecommendations := recommendations.length
    hypopgAvailable := hypopgAvailable
    recommendations := recommendations
    message := if recommendations.isEmpty then some advisorNoRecsMessage else none }

/-! ### Hypothetical index state (tools_index.py with HypoPGService)

`ExplainQueryToolHandler.run_tool` creates the requested hypothetical
indexes and re-runs EXPLAIN inside a `try` whose `finally` resets all
hypothetical indexes.  The session state is the list of live hypothetical
indexes.  The `HypoPGService` methods are not part of the sources under
verification, so their state effect is modelled from the specification. -/

/-- One hypothetical index specification / registered index. -/
structure HypoIndex where
  table : String
  columns : List String
  indexType : String
  uniqueIndex : Bool
  deriving Repr, DecidableEq

/-- The session-scoped hypothetical-index state: the live indexes. -/
abbrev HypoState := List HypoIndex

/-- Modelled from the spec: `HypoPGService.reset_hypothetical_indexes`
(`reset()`) clears all session hypothetical-index state and is safe with
zero active indexes. -/
def resetHypotheticalIndexes (_ : HypoState) : HypoState := []

/-- Modelled from the spec: `HypoPGService.list_hypothetical_indexes`
(`list_indexes()`) enumerates the live session hypothetical indexes. -/
def listHypotheticalIndexes (s : HypoState) : List HypoIndex := s

/-- The outcome of one `create_hypothetical_index` database call, chosen
by the environment: a successful registration, a failure record
(`success = False`, e.g. an invalid specification), or a raised
exception. -/
inductive CreateOutcome where
  | success
  | failure
  | raised
  deriving Repr, DecidableEq

/-- Modelled from the spec: `HypoPGService.create_hypothetical_index`
registers the simulated index in session state and reports success, or
reports a failure record leaving the state unchanged, or raises; which of
the three happens is the supplied `outcome`. Returns `none` for a raised
exception, otherwise the success flag and the new state. -/
def createHypotheticalIndex (spec : HypoIndex) (outcome : CreateOutcome)
    (s : HypoState) : Option (Bool × HypoState) :=
  match outcome with
  | .success => some (true, s ++ [spec])
  | .failure => some (false, s)
  | .raised => none

/-- The creation loop of `ExplainQueryToolHandler.run_tool`: create each
requested index in order; a raised exception aborts the loop.  Returns
the state reached and whether an exception was raised. -/
def createIndexLoop : List (HypoIndex × CreateOutcome) → HypoState →
    HypoState × Bool
  | [], s => (s, false)
  | (spec, outcome) :: rest, s =>
    match createHypotheticalIndex spec outcome s with
    | none => (s, true)
    | some (_, s') => createIndexLoop rest s'

/-- How the hypothetical-index branch of `run_tool` ends: the plan with
indexes was captured, or an exception was raised (while creating an
index or while re-running EXPLAIN). -/
inductive BranchEnd where
  | completed
  | raised
  deriving Repr, DecidableEq

/-- The hypothetical-index branch of `ExplainQueryToolHandler.run_tool`
(taken when HypoPG is available and index specifications were supplied):
the `try` block creates the indexes and re-captures the plan, either of
which may raise (`explainRaises` supplies the EXPLAIN outcome), and the
`finally` block resets the hypothetical indexes on every exit path. -/
def explainHypoBranch (specs : List (HypoIndex × CreateOutcome))
    (explainRaises : Bool) (s : HypoState) : BranchEnd × HypoState :=
  let (s₁, createRaised) := createIndexLoop specs s
  let outcome : BranchEnd :=
    if createRaised then .raised
    else if explainRaises then .raised
    else .completed
  (outcome, resetHypotheticalIndexes s₁)

/-! ### QueryRewriteSuggestionsToolHandler (tools_query_rewrite.py)

`_normalize_query` upper-cases and whitespace-collapses the query;
`_check_null_comparisons` then searches the normalized text with the two
regular expressions `[!=]=\s*NULL\b` and `<>\s*NULL\b`.  The regexes are
executable matchers over the character list; `\s` is the whitespace
class, `\b` the word boundary after `NULL`. -/

/-- `_normalize_query`: upper-case, then collapse whitespace. -/
def normalizeQuery (q : String) : String :=
  normalizeWhitespaceJoin (String.mk (q.toList.map Char.toUpper))

/-- A regex word character (`\w`): letters, digits, underscore. -/
def isWordChar (c : Char) : Bool :=
  c.isAlphanum || c = '_'

/-- Matches `\s*NULL\b` at the head of the character list. -/
def matchNullTail (l : List Char) : Bool :=
  match l.dropWhile pySpace with
  | 'N' :: 'U' :: 'L' :: 'L' :: rest =>
    match rest with
    | [] => true
    | c :: _ => !isWordChar c
  | _ => false

/-- Matches `[!=]=\s*NULL\b` at the head of the character list: one
character that is `!` or `=`, then a literal `=`, then `\s*NULL\b`. -/
def matchEqNullHead : List Char → Bool
  | a :: '=' :: rest => (a = '!' || a = '=') && matchNullTail rest
  | _ => false

/-- Matches `<>\s*NULL\b` at the head of the character list. -/
def matchNeNullHead : List Char → Bool
  | '<' :: '>' :: rest => matchNullTail rest
  | _ => false

/-- `re.search`: does the pattern match at some position of the text? -/
def searchAnywhere (p : List Char → Bool) : List Char → Bool
  | [] => p []
  | l@(_ :: rest) => p l || searchAnywhere p rest

/-- A rewrite suggestion (the fields the claim is about). -/
structure Suggestion where
  pattern : String
  severity : String
  issue : String
  deriving Repr, DecidableEq

/-- The suggestion `_check_null_comparisons` appends when it matches. -/
def nullComparisonSuggestion : Suggestion :=
  { pattern := "Incorrect NULL comparison"
    severity := "critical"
    issue := "Using = or != with NULL always returns NULL (unknown), not true/false" }

/-- `_check_null_comparisons` applied to the normalized query text:
append the critical suggestion when either regex matches. -/
def checkNullComparisons (normalized : String) : List Suggestion :=
  if searchAnywhere matchEqNullHead normalized.toList
      || searchAnywhere matchNeNullHead normalized.toList then
    [nullComparisonSuggestion]
  else []

/-! ### QueryPlanHistoryToolHandler (tools_query_history.py)

`_generate_query_hash` hashes the whitespace-normalized query text with
SHA-256 and keeps the first 16 hex digits; the history is an
insertion-ordered dictionary from that hash to the list of stored plan
entries.  The digest function is external (`hashlib`), so it is a
parameter here; everything proved holds for SHA-256 in particular. -/

/-- `_generate_query_hash` with the hex digest function supplied:
normalize whitespace, digest, keep the first 16 characters. -/
def generateQueryHash (digest : String → String) (q : String) : String :=
  (digest (normalizeWhitespaceJoin q)).take 16

/-- One stored plan entry; the label and the extracted metrics (an opaque
payload standing for the plan and metrics dictionaries). -/
structure PlanEntry where
  label : String
  metrics : String
  deriving Repr, DecidableEq

/-- `_plan_history`: the insertion-ordered dictionary from query hash to
stored entries, as an association list. -/
abbrev PlanHistory := List (String × List PlanEntry)

/-- Dictionary lookup in the history. -/
def historyFind : PlanHistory → String → Option (List PlanEntry)
  | [], _ => none
  | kv :: t, k => if kv.1 = k then some kv.2 else historyFind t k

/-- Replace the entry list stored under key `k` (dictionary item
assignment for a key already present). -/
def historyUpdate (h : PlanHistory) (k : String) (ps : List PlanEntry) :
    PlanHistory :=
  h.map (fun kv => if kv.1 = k then (kv.1, ps) else kv)

/-- `_store_plan` after the EXPLAIN round trip: compute the hash, append
the entry under it (creating the key if absent), and report the hash and
the new entry's plan index. -/
def storePlan (digest : String → String) (q : String) (entry : PlanEntry)
    (h : PlanHistory) : PlanHistory × String × Nat :=
  match historyFind h (generateQueryHash digest q) with
  | none =>
    (h ++ [(generateQueryHash digest q, [entry])], generateQueryHash digest q, 0)
  | some ps =>
    (historyUpdate h (generateQueryHash digest q) (ps ++ [entry]),
      generateQueryHash digest q, ps.length)

/-- The output of a successful `_get_plans` call: the hash, the count,
and the per-entry summaries (label and metrics). -/
structure GetPlansOutput where
  usedHash : String
  totalPlans : Nat
  plans : List PlanEntry
  deriving Repr, DecidableEq

/-- `_get_plans` called with a query text: hash it and look it up;
`none` models the `No stored plans found` text result. -/
def getPlans (digest : String → String) (q : String) (h : PlanHistory) :
    Option GetPlansOutput :=
  match historyFind h (generateQueryHash digest q) with
  | none => none
  | some ps =>
    some { usedHash := generateQueryHash digest q
           totalPlans := ps.length
           plans := ps }

/-- The possible results of `_compare_plans` once the entry list for the
hash has been found.  `outOfRange` is a marker for the (unreachable)
situation where the guarded list indexing would fail. -/
inductive CompareResult where
  | notEnoughPlans
  | invalidIndex1 (i : Int)
  | invalidIndex2 (i : Int)
  | ok (i1 i2 : Nat) (p1 p2 : PlanEntry)
  | outOfRange
  deriving Repr, DecidableEq

/-- The negative-index resolution of `_compare_plans`:
`plan_index_2 < 0` becomes `len(plans) + plan_index_2`. -/
def resolveIndex2 (n : Nat) (i : Int) : Int :=
  if i < 0 then (n : Int) + i else i

/-- `_compare_plans` on the entry list stored for the hash: fewer than
two plans is rejected, a negative second index is resolved from the end,
both indexes are bounds-checked before the list is indexed. -/
def comparePlans (plans : List PlanEntry) (planIndex1 planIndex2 : Int) :
    CompareResult :=
  if plans.length < 2 then .notEnoughPlans
  else
    let i2 := resolveIndex2 plans.length planIndex2
    if planIndex1 < 0 ∨ (plans.length : Int) ≤ planIndex1 then
      .invalidIndex1 planIndex1
    else if i2 < 0 ∨ (plans.length : Int) ≤ i2 then
      .invalidIndex2 i2
    else
      match plans.get? planIndex1.toNat, plans.get? i2.toNat with
      | some p1, some p2 => .ok planIndex1.toNat i2.toNat p1 p2
      | _, _ => .outOfRange

/-! ## Theorems -/

/-- Claim C1: in the hypothetical-index branch of
`ExplainQueryToolHandler.run_tool` (HypoPG available, at least one
hypothetical index specification supplied), the `finally` block resets
the hypothetical-index state before the call returns on every exit path
— success, or an exception raised while creating the indexes or while
re-capturing the plan — so a subsequent listing of hypothetical indexes
returns no leftover entries. -/
theorem explainHypoBranch_always_resets
    (specs : List (HypoIndex × CreateOutcome)) (explainRaises : Bool)
    (s : HypoState) (_hspecs : specs ≠ []) :
    listHypotheticalIndexes (explainHypoBranch specs explainRaises s).2 = [] := by
  simp [explainHypoBranch, listHypotheticalIndexes, resetHypotheticalIndexes]

/-- Witness for C1: a concrete branch run in which the second index
creation raises, starting from a session that already holds an index. -/
theorem explainHypoBranch_always_resets_witness :
    listHypotheticalIndexes
      (explainHypoBranch
        [(⟨"orders", ["customer_id"], "btree", false⟩, .success),
         (⟨"orders", ["status"], "btree", false⟩, .raised)]
        false [⟨"users", ["email"], "btree", true⟩]).2 = [] :=
  explainHypoBranch_always_resets _ false _ (by decide)

/-- Claim C4: `get_slow_queries` returns the extension-missing message
whenever the `pg_stat_statements` probe does not report the extension
present, returns the distinct no-rows message (not an error and not the
extension-missing message) when the extension is present but no row
satisfies the filters, and never silently returns an empty result in
the extension-missing case. -/
theorem getSlowQueries_distinguishes_messages (checkResult : Option Bool)
    (rows : List ρ) (minCalls : Int) (minMeanTimeMs : ℚ) (orderBy : String) :
    (checkResult ≠ some true →
      getSlowQueries checkResult rows minCalls minMeanTimeMs orderBy =
        .message extMissingMessage) ∧
    (checkResult = some true → rows = [] →
      getSlowQueries checkResult rows minCalls minMeanTimeMs orderBy =
        .message noSlowQueriesMessage) ∧
    noSlowQueriesMessage ≠ extMissingMessage ∧
    extMissingMessage.take 7 = "Error: " ∧
    noSlowQueriesMessage.take 7 ≠ "Error: " := by
  refine ⟨?_, ?_, by decide, by decide, by decide⟩
  · intro h
    match checkResult with
    | none => simp [getSlowQueries]
    | some false => simp [getSlowQueries]
    | some true => exact absurd rfl h
  · rintro rfl rfl
    simp [getSlowQueries]

/-- Witness for C4: the probe reporting absence yields the
extension-missing message; a present extension with zero rows yields the
no-rows message. -/
theorem getSlowQueries_distinguishes_messages_witness :
    getSlowQueries (some false) ([] : List String) 1 0 ("mean_time") =
      .message extMissingMessage ∧
    getSlowQueries (some true) ([] : List String) 1 0 ("mean_time") =
      .message noSlowQueriesMessage :=
  ⟨(getSlowQueries_distinguishes_messages (some false) [] 1 0 ("mean_time")).1
      (by decide),
   (getSlowQueries_distinguishes_messages (some true) [] 1 0 ("mean_time")).2.1
      rfl rfl⟩

/-- Claim C5: the ORDER BY column interpolated into the statistics query
is always drawn from the fixed allow-list; `mean_time`, `calls` and
`rows` map to their allow-listed columns, and every other `order_by`
value falls back to `mean_exec_time`. -/
theorem resolveOrderColumn_allowlisted (orderBy : String) :
    resolveOrderColumn orderBy ∈ ["mean_exec_time", "calls", "rows"] ∧
    (orderBy = "mean_time" → resolveOrderColumn orderBy = "mean_exec_time") ∧
    (orderBy = "calls" → resolveOrderColumn orderBy = "calls") ∧
    (orderBy = "rows" → resolveOrderColumn orderBy = "rows") ∧
    (orderBy ∉ (["mean_time", "calls", "rows"] : List String) →
      resolveOrderColumn orderBy = "mean_exec_time") := by
  by_cases h1 : orderBy = "mean_time" <;>
    by_cases h2 : orderBy = "calls" <;>
    by_cases h3 : orderBy = "rows" <;>
    simp_all [resolveOrderColumn, orderMap]

/-- Witness for C5: an arbitrary injection attempt falls back to
`mean_exec_time`, and `calls` maps to `calls`. -/
theorem resolveOrderColumn_allowlisted_witness :
    resolveOrderColumn ("calls; DROP TABLE t") = "mean_exec_time" ∧
    resolveOrderColumn ("calls") = "calls" :=
  ⟨(resolveOrderColumn_allowlisted ("calls; DROP TABLE t")).2.2.2.2 (by decide),
   (resolveOrderColumn_allowlisted ("calls")).2.2.1 rfl⟩

/-- Claim C6 (code bug): `_check_null_comparisons` is documented (and
claimed) to flag `=`, `!=` and `<>` comparisons with NULL, but its first
regex `[!=]=\s*NULL\b` only matches a `!` or `=` followed by a second
`=`, so a plain `= NULL` comparison produces no suggestion while `!=`
and `<>` produce the critical one. -/
theorem checkNullComparisons_misses_plain_equals_null :
    checkNullComparisons
      (normalizeQuery ("SELECT * FROM users WHERE deleted_at = NULL")) = [] ∧
    checkNullComparisons
      (normalizeQuery ("SELECT * FROM users WHERE deleted_at != NULL")) =
      [nullComparisonSuggestion] ∧
    checkNullComparisons
      (normalizeQuery ("SELECT * FROM users WHERE deleted_at <> NULL")) =
      [nullComparisonSuggestion] ∧
    nullComparisonSuggestion.pattern = "Incorrect NULL comparison" ∧
    nullComparisonSuggestion.severity = "critical" := by
  exact ⟨by decide, by decide, by decide, rfl, rfl⟩

/-- Claim C10: `_compare_plans` on a stored history of `n` plans rejects
`n < 2` with the not-enough-plans result, resolves a negative second
index to `n + plan_index_2`, rejects any resolved index outside
`[0, n)`, and otherwise indexes the plan list only at positions proven
in range — the guarded lookup never fails. -/
theorem comparePlans_safe (plans : List PlanEntry) (planIndex1 planIndex2 : Int) :
    (plans.length < 2 → comparePlans plans planIndex1 planIndex2 = .notEnoughPlans) ∧
    comparePlans plans planIndex1 planIndex2 ≠ .outOfRange ∧
    (2 ≤ plans.length → (planIndex1 < 0 ∨ (plans.length : Int) ≤ planIndex1) →
      comparePlans plans planIndex1 planIndex2 = .invalidIndex1 planIndex1) ∧
    (2 ≤ plans.length → 0 ≤ planIndex1 → planIndex1 < (plans.length : Int) →
      (resolveIndex2 plans.length planIndex2 < 0 ∨
        (plans.length : Int) ≤ resolveIndex2 plans.length planIndex2) →
      comparePlans plans planIndex1 planIndex2 =
        .invalidIndex2 (resolveIndex2 plans.length planIndex2)) ∧
    (∀ j1 j2 p1 p2, comparePlans plans planIndex1 planIndex2 = .ok j1 j2 p1 p2 →
      (j1 : Int) = planIndex1 ∧
      (j2 : Int) = resolveIndex2 plans.length planIndex2 ∧
      j1 < plans.length ∧ j2 < plans.length ∧
      plans.get? j1 = some p1 ∧ plans.get? j2 = some p2) := by
  refine ⟨fun h => by simp [comparePlans, h], ?_, ?_, ?_, ?_⟩
  · unfold comparePlans
    by_cases hlen : plans.length < 2
    · simp [hlen]
    · simp only [if_neg hlen]
      by_cases h1 : planIndex1 < 0 ∨ (plans.length : Int) ≤ planIndex1
      · simp [h1]
      · simp only [if_neg h1]
        push_neg at h1
        by_cases h2 : resolveIndex2 plans.length planIndex2 < 0 ∨
            (plans.length : Int) ≤ resolveIndex2 plans.length planIndex2
        · simp [h2]
        · simp only [if_neg h2]
          push_neg at h2
          obtain ⟨p1, hp1⟩ : ∃ p, plans.get? planIndex1.toNat = some p := by
            cases hg : plans.get? planIndex1.toNat with
            | none => exact absurd (List.get?_eq_none.mp hg) (by omega)
            | some p => exact ⟨p, rfl⟩
          obtain ⟨p2, hp2⟩ :
              ∃ p, plans.get? (resolveIndex2 plans.length planIndex2).toNat = some p := by
            cases hg : plans.get? (resolveIndex2 plans.length planIndex2).toNat with
            | none => exact absurd (List.get?_eq_none.mp hg) (by omega)
            | some p => exact ⟨p, rfl⟩
          rw [hp1, hp2]
          simp
  · intro hge h1
    have hlen : ¬ plans.length < 2 := by omega
    simp [comparePlans, hlen, h1]
  · intro hge hp0 hplt h2
    have hlen : ¬ plans.length < 2 := by omega
    have h1 : ¬ (planIndex1 < 0 ∨ (plans.length : Int) ≤ planIndex1) := by omega
    simp [comparePlans, hlen, h1, h2]
  · intro j1 j2 p1 p2
    unfold comparePlans
    by_cases hlen : plans.length < 2
    · simp [hlen]
    · simp only [if_neg hlen]
      by_cases h1 : planIndex1 < 0 ∨ (plans.length : Int) ≤ planIndex1
      · simp [h1]
      · simp only [if_neg h1]
        push_neg at h1
        by_cases h2 : resolveIndex2 plans.length planIndex2 < 0 ∨
            (plans.length : Int) ≤ resolveIndex2 plans.length planIndex2
        · simp [h2]
        · simp only [if_neg h2]
          push_neg at h2
          obtain ⟨q1, hq1⟩ : ∃ p, plans.get? planIndex1.toNat = some p := by
            cases hg : plans.get? planIndex1.toNat with
            | none => exact absurd (List.get?_eq_none.mp hg) (by omega)
            | some p => exact ⟨p, rfl⟩
          obtain ⟨q2, hq2⟩ :
              ∃ p, plans.get? (resolveIndex2 plans.length planIndex2).toNat = some p := by
            cases hg : plans.get? (resolveIndex2 plans.length planIndex2).toNat with
            | none => exact absurd (List.get?_eq_none.mp hg) (by omega)
            | some p => exact ⟨p, rfl⟩
          rw [hq1, hq2]
          intro h
          injection h with e1 e2 e3 e4
          subst e1; subst e2; subst e3; subst e4
          refine ⟨by omega, by omega, by omega, by omega, hq1, hq2⟩

/-- A plan tree consisting of one childless node carrying only a
`Total Cost`, for concrete evaluations. -/
def costOnlyNode (c : ℚ) : PlanNode :=
  .mk { nodeType := none, relationName := none, filterCond := none,
        actualRows := none, planRows := none, hashBatches := none,
        sortMethod := none, actualLoops := none, totalCost := some c } []

/-- Python rounding never rounds above an integer upper bound. -/
theorem pyRoundInt_le (q : ℚ) (n : ℤ) (h : q ≤ (n : ℚ)) : pyRoundInt q ≤ n := by
  have hf : ⌊q⌋ ≤ n := by
    have := Int.floor_le_floor h
    simpa using this
  unfold pyRoundInt
  split_ifs with h1 h2 h3
  · exact hf
  · have hq : (⌊q⌋ : ℚ) < q := by linarith
    have hlt : (⌊q⌋ : ℚ) < (n : ℚ) := lt_of_lt_of_le hq h
    have : ⌊q⌋ < n := by exact_mod_cast hlt
    omega
  · exact hf
  · have hq : (⌊q⌋ : ℚ) < q := by
      push_neg at h1
      linarith
    have hlt : (⌊q⌋ : ℚ) < (n : ℚ) := lt_of_lt_of_le hq h
    have : ⌊q⌋ < n := by exact_mod_cast hlt
    omega

/-- Two-decimal Python rounding preserves the bound 100. -/
theorem pyRound2_le_100 (x : ℚ) (h : x ≤ 100) : pyRound2 x ≤ 100 := by
  unfold pyRound2
  have hb : pyRoundInt (x * 100) ≤ 10000 := by
    refine pyRoundInt_le _ 10000 ?_
    push_cast
    linarith
  rw [div_le_iff₀ (by norm_num : (0 : ℚ) < 100)]
  calc (pyRoundInt (x * 100) : ℚ) ≤ 10000 := by exact_mod_cast hb
    _ = 100 * 100 := by norm_num

/-- Claim C2 counterexample: with a before cost of 100 and an after cost
of 200 the handler reports `estimated_improvement_percent = -100`, which
is negative rather than 0; and with a before cost of 0 the field is
omitted rather than reported as 0. -/
theorem explainImprovement_not_clamped :
    explainImprovement (some (costOnlyNode 100)) (some (costOnlyNode 200)) =
      some (-100) ∧
    (-100 : ℚ) < 0 ∧
    explainImprovement (some (costOnlyNode 0)) (some (costOnlyNode 50)) = none := by
  refine ⟨?_, by norm_num, ?_⟩
  · show improvementField 100 200 = some (-100)
    rw [improvementField, if_pos (by norm_num : (100 : ℚ) > 0)]
    have harg : ((100 : ℚ) - 200) / 100 * 100 = -100 := by norm_num
    rw [harg]
    have hfloor : ⌊(-100 : ℚ) * 100⌋ = -10000 := by
      norm_num
    rw [pyRound2, pyRoundInt, hfloor]
    norm_num
  · show improvementField 0 50 = none
    rw [improvementField, if_neg (by norm_num)]

/-- Claim C2 (amended): the reported `estimated_improvement_percent` of
an explain-with-hypothetical-indexes result equals
`round((before - after) / before * 100, 2)` whenever the before cost is
positive — a value that is at most 100 when the after cost is
nonnegative but is negative (not clamped to 0) whenever rounding
`(before - after) / before * 100` gives a negative value — and the field
is omitted (not reported as 0) when the before cost is not positive. -/
theorem explainImprovement_formula (originalPlan planWithIndexes : Option PlanNode) :
    (0 < extractCost originalPlan →
      explainImprovement originalPlan planWithIndexes =
        some (pyRound2 ((extractCost originalPlan - extractCost planWithIndexes) /
          extractCost originalPlan * 100))) ∧
    (¬ 0 < extractCost originalPlan →
      explainImprovement originalPlan planWithIndexes = none) ∧
    (0 < extractCost originalPlan → 0 ≤ extractCost planWithIndexes →
      ∀ v, explainImprovement originalPlan planWithIndexes = some v → v ≤ 100) := by
  refine ⟨fun h => ?_, fun h => ?_, fun h hn v hv => ?_⟩
  · rw [explainImprovement, improvementField, if_pos h]
  · rw [explainImprovement, improvementField, if_neg h]
  · rw [explainImprovement, improvementField, if_pos h] at hv
    have hx : (extractCost originalPlan - extractCost planWithIndexes) /
        extractCost originalPlan * 100 ≤ 100 := by
      have h1 : (extractCost originalPlan - extractCost planWithIndexes) /
          extractCost originalPlan ≤ 1 := by
        rw [div_le_one h]
        linarith
      linarith
    injection hv with hv
    rw [← hv]
    exact pyRound2_le_100 _ hx

/-- Witness for the amended C2: before cost 100, after cost 40 gives the
rounded formula value. -/
theorem explainImprovement_formula_witness :
    explainImprovement (some (costOnlyNode 100)) (some (costOnlyNode 40)) =
      some (pyRound2 ((extractCost (some (costOnlyNode 100)) -
        extractCost (some (costOnlyNode 40))) /
        extractCost (some (costOnlyNode 100)) * 100)) :=
  (explainImprovement_formula (some (costOnlyNode 100)) (some (costOnlyNode 40))).1
    (by norm_num [extractCost, costOnlyNode, PlanNode.info])

/-- Claim C8: when no gathered candidate meets the improvement threshold
— including a workload with zero qualifying queries — the index advisor
returns an output with an empty recommendation list and an explanatory
message naming the improvement threshold among the possible causes,
rather than an error. -/
theorem runIndexAdvisor_empty_has_message (minImprovement : ℚ)
    (maxRecommendations : Nat) (allRecommendations : List Recommendation)
    (hypopgAvailable : Bool)
    (h : ∀ r ∈ allRecommendations, improvementKey r < minImprovement) :
    (runIndexAdvisor minImprovement maxRecommendations allRecommendations
      hypopgAvailable).recommendations = [] ∧
    (runIndexAdvisor minImprovement maxRecommendations allRecommendations
      hypopgAvailable).message = some advisorNoRecsMessage ∧
    (∃ pre, advisorNoRecsMessage =
      pre ++ "The improvement threshold is too high") := by
  have hfilter : allRecommendations.filter
      (fun r => improvementKey r ≥ minImprovement) = [] := by
    rw [List.filter_eq_nil_iff]
    intro a ha
    simp only [decide_eq_true_eq, not_le]
    exact h a ha
  have hsel : selectRecommendations minImprovement maxRecommendations
      allRecommendations = [] := by
    rw [selectRecommendations, hfilter]
    exact List.take_nil
  refine ⟨?_, ?_, ?_⟩
  · show selectRecommendations minImprovement maxRecommendations
      allRecommendations = []
    exact hsel
  · show (if (selectRecommendations minImprovement maxRecommendations
      allRecommendations).isEmpty then some advisorNoRecsMessage else none) =
      some advisorNoRecsMessage
    rw [hsel]
    rfl
  · exact ⟨"No index recommendations found. This could mean:\n- Your database already has optimal indexes\n- Not enough query data in pg_stat_statements\n- ", by decide⟩

/-- Witness for C8: a threshold of 80 with a best candidate scoring 50
yields the empty list and the message. -/
theorem runIndexAdvisor_empty_has_message_witness :
    (runIndexAdvisor 80 10 [⟨"orders", ["customer_id"], some 50, 1000⟩]
      true).recommendations = [] ∧
    (runIndexAdvisor 80 10 [⟨"orders", ["customer_id"], some 50, 1000⟩]
      true).message = some advisorNoRecsMessage :=
  ⟨(runIndexAdvisor_empty_has_message 80 10 _ true (by decide)).1,
   (runIndexAdvisor_empty_has_message 80 10 _ true (by decide)).2.1⟩

/-- Witness for C10: with two stored plans, index `-1` resolves to the
last plan and the comparison succeeds; with one plan the
not-enough-plans result is returned. -/
theorem comparePlans_safe_witness :
    comparePlans [⟨"before_index", "m1"⟩, ⟨"after_index", "m2"⟩] 0 (-1) ≠
      CompareResult.outOfRange ∧
    comparePlans [⟨"only", "m1"⟩] 0 (-1) = CompareResult.notEnoughPlans :=
  ⟨(comparePlans_safe [⟨"before_index", "m1"⟩, ⟨"after_index", "m2"⟩] 0 (-1)).2.1,
   (comparePlans_safe [⟨"only", "m1"⟩] 0 (-1)).1 (by decide)⟩

/-- Membership through stable insertion. -/
theorem mem_insertByImprovementDesc {x r : Recommendation}
    {l : List Recommendation} :
    x ∈ insertByImprovementDesc r l ↔ x = r ∨ x ∈ l := by
  induction l with
  | nil => simp [insertByImprovementDesc]
  | cons y ys ih =>
    unfold insertByImprovementDesc
    split_ifs with h
    · rw [List.mem_cons, ih, List.mem_cons]
      tauto
    · simp

/-- Stable insertion preserves the descending-by-improvement invariant. -/
theorem pairwise_insertByImprovementDesc {r : Recommendation}
    {l : List Recommendation}
    (hl : l.Pairwise (fun a b => improvementKey b ≤ improvementKey a)) :
    (insertByImprovementDesc r l).Pairwise
      (fun a b => improvementKey b ≤ improvementKey a) := by
  induction l with
  | nil => simp [insertByImprovementDesc]
  | cons y ys ih =>
    rw [List.pairwise_cons] at hl
    obtain ⟨hy, hys⟩ := hl
    unfold insertByImprovementDesc
    split_ifs with h
    · rw [List.pairwise_cons]
      refine ⟨?_, ih hys⟩
      intro z hz
      rcases mem_insertByImprovementDesc.mp hz with rfl | hz'
      · exact le_of_lt h
      · exact hy z hz'
    · push_neg at h
      rw [List.pairwise_cons]
      refine ⟨?_, List.pairwise_cons.mpr ⟨hy, hys⟩⟩
      intro z hz
      rcases List.mem_cons.mp hz with rfl | hz'
      · exact h
      · exact le_trans (hy z hz') h

/-- The stable sort is descending by improvement. -/
theorem pairwise_sortByImprovementDesc (l : List Recommendation) :
    (sortByImprovementDesc l).Pairwise
      (fun a b => improvementKey b ≤ improvementKey a) := by
  unfold sortByImprovementDesc
  induction l with
  | nil => simp
  | cons x xs ih => exact pairwise_insertByImprovementDesc ih

/-- The stable sort neither adds nor loses elements. -/
theorem mem_sortByImprovementDesc {x : Recommendation}
    {l : List Recommendation} :
    x ∈ sortByImprovementDesc l ↔ x ∈ l := by
  unfold sortByImprovementDesc
  induction l with
  | nil => simp
  | cons y ys ih =>
    rw [List.foldr_cons, mem_insertByImprovementDesc, List.mem_cons]
    tauto

/-- Claim C3 counterexample: with two candidates of equal improvement,
the one with the larger estimated size stays first — no tie-break by
smaller estimated index size (nor by table name or column list) is
applied. -/
theorem selectRecommendations_no_size_tiebreak :
    selectRecommendations 10 10
      [⟨"t", ["a"], some 50, 5000⟩, ⟨"t", ["b"], some 50, 100⟩] =
      [⟨"t", ["a"], some 50, 5000⟩, ⟨"t", ["b"], some 50, 100⟩] ∧
    improvementKey ⟨"t", ["a"], some 50, 5000⟩ =
      improvementKey ⟨"t", ["b"], some 50, 100⟩ ∧
    (⟨"t", ["b"], some 50, 100⟩ : Recommendation).estimatedSizeBytes <
      (⟨"t", ["a"], some 50, 5000⟩ : Recommendation).estimatedSizeBytes := by
  refine ⟨by decide, by decide, by decide⟩

/-- Claim C3 (amended): the emitted recommendation list contains only
candidates whose improvement meets or exceeds the caller's
min_improvement_percent, is sorted by estimated improvement descending,
contains at most max_recommendations entries, and draws every entry from
the gathered candidates; candidates with equal improvement keep their
pre-sort relative order (Python's sort is stable) — no tie-break by
estimated size, table name or column list is applied. -/
theorem selectRecommendations_spec (minImprovement : ℚ)
    (maxRecommendations : Nat) (l : List Recommendation) :
    (∀ r ∈ selectRecommendations minImprovement maxRecommendations l,
      minImprovement ≤ improvementKey r) ∧
    (selectRecommendations minImprovement maxRecommendations l).Pairwise
      (fun a b => improvementKey b ≤ improvementKey a) ∧
    (selectRecommendations minImprovement maxRecommendations l).length ≤
      maxRecommendations ∧
    (∀ r ∈ selectRecommendations minImprovement maxRecommendations l, r ∈ l) := by
  have hsub : ∀ r ∈ selectRecommendations minImprovement maxRecommendations l,
      r ∈ l.filter (fun r => improvementKey r ≥ minImprovement) := by
    intro r hr
    have : r ∈ sortByImprovementDesc
        (l.filter (fun r => improvementKey r ≥ minImprovement)) :=
      List.take_subset _ _ hr
    exact mem_sortByImprovementDesc.mp this
  refine ⟨?_, ?_, ?_, ?_⟩
  · intro r hr
    have := hsub r hr
    rw [List.mem_filter] at this
    exact of_decide_eq_true this.2
  · exact List.Pairwise.sublist (List.take_sublist _ _)
      (pairwise_sortByImprovementDesc
        (l.filter (fun r => improvementKey r ≥ minImprovement)))
  · exact List.length_take_le _ _
  · intro r hr
    exact List.mem_of_mem_filter (hsub r hr)

/-- Queries with equal whitespace-split token sequences get the same
history hash, whatever the digest function (SHA-256 in particular). -/
theorem generateQueryHash_eq_of_tokens_eq (digest : String → String)
    {q q' : String} (h : pyTokens q = pyTokens q') :
    generateQueryHash digest q = generateQueryHash digest q' := by
  unfold generateQueryHash normalizeWhitespaceJoin
  rw [h]

/-- Lookup after appending a fresh key at the end of the dictionary. -/
theorem historyFind_append (h : PlanHistory) (k : String)
    (e : List PlanEntry) (hnone : historyFind h k = none) :
    historyFind (h ++ [(k, e)]) k = some e := by
  induction h with
  | nil => simp [historyFind]
  | cons kv t ih =>
    rw [List.cons_append]
    unfold historyFind at hnone ⊢
    by_cases hk : kv.1 = k
    · rw [if_pos hk] at hnone
      exact absurd hnone (by simp)
    · rw [if_neg hk] at hnone ⊢
      exact ih hnone

/-- Lookup after replacing the value stored under a key. -/
theorem historyFind_update (h : PlanHistory) (k : String)
    (ps : List PlanEntry) :
    historyFind (historyUpdate h k ps) k =
      if (historyFind h k).isSome then some ps else none := by
  induction h with
  | nil => simp [historyFind, historyUpdate]
  | cons kv t ih =>
    unfold historyUpdate at ih ⊢
    rw [List.map_cons]
    by_cases hk : kv.1 = k
    · rw [if_pos hk]
      unfold historyFind
      simp [hk]
    · rw [if_neg hk]
      unfold historyFind
      rw [if_neg hk, if_neg hk]
      exact ih

/-- Claim C9: two query texts with equal whitespace-split token
sequences are assigned the same history hash, so after a successful
store of a plan for query `q`, a get using any whitespace-variant `q'`
returns a history whose `total_plans` counts the stored plan and whose
last entry carries the stored label and metrics. -/
theorem storePlan_getPlans_roundtrip (digest : String → String)
    (q q' : String) (entry : PlanEntry) (h : PlanHistory)
    (htok : pyTokens q = pyTokens q') :
    generateQueryHash digest q = generateQueryHash digest q' ∧
    ∃ out, getPlans digest q' (storePlan digest q entry h).1 = some out ∧
      out.totalPlans =
        ((historyFind h (generateQueryHash digest q)).getD []).length + 1 ∧
      out.plans.getLast? = some entry := by
  have hhash := generateQueryHash_eq_of_tokens_eq digest htok
  refine ⟨hhash, ?_⟩
  unfold storePlan getPlans
  rw [← hhash]
  cases hfind : historyFind h (generateQueryHash digest q) with
  | none =>
    simp only [hfind]
    rw [historyFind_append h _ _ hfind]
    exact ⟨_, rfl, by simp, by simp⟩
  | some ps =>
    simp only [hfind]
    rw [historyFind_update h (generateQueryHash digest q) (ps ++ [entry]), hfind]
    simp only [Option.isSome_some, if_true]
    exact ⟨_, rfl, by simp [hfind], by simp⟩

/-- Witness for C9: storing under `SELECT 1` and reading back with the
whitespace-variant `SELECT  1` (two blanks), with the identity digest
standing for a fixed hex digest. -/
theorem storePlan_getPlans_roundtrip_witness :
    generateQueryHash id ("SELECT 1") = generateQueryHash id ("SELECT  1") ∧
    ∃ out, getPlans id ("SELECT  1")
        (storePlan id ("SELECT 1") ⟨"before_index", "metrics"⟩ []).1 =
        some out ∧
      out.totalPlans =
        ((historyFind [] (generateQueryHash id ("SELECT 1"))).getD []).length + 1 ∧
      out.plans.getLast? = some ⟨"before_index", "metrics"⟩ :=
  storePlan_getPlans_roundtrip id ("SELECT 1") ("SELECT  1")
    ⟨"before_index", "metrics"⟩ [] (by decide)

/-- The first warning block fires exactly on claim condition 1. -/
theorem seqScanWarnings_length (i : NodeInfo) :
    (seqScanWarnings i).length = if seqScanFlag i then 1 else 0 := by
  unfold seqScanWarnings seqScanFlag
  by_cases h1 : i.nodeType.getD ("Unknown") = "Seq Scan" <;>
    by_cases h2 : i.actualRows.getD (i.planRows.getD 0) > 10000 <;>
    simp [h1, h2]

/-- The second warning block fires exactly on claim condition 2. -/
theorem ratioWarnings_length (i : NodeInfo) :
    (ratioWarnings i).length = if rowRatioFlag i then 1 else 0 := by
  unfold ratioWarnings rowRatioFlag
  cases i.actualRows with
  | none => cases i.planRows <;> simp
  | some ar =>
    cases i.planRows with
    | none => simp
    | some pr =>
      by_cases h1 : pr > 0 <;>
        by_cases h2 : (ar : ℚ) / (pr : ℚ) > 10 <;>
        by_cases h3 : (ar : ℚ) / (pr : ℚ) < 1/10 <;>
        split_ifs <;> simp_all

/-- The third warning block fires exactly on claim condition 3. -/
theorem hashWarnings_length (i : NodeInfo) :
    (hashWarnings i).length = if hashBatchesFlag i then 1 else 0 := by
  unfold hashWarnings hashBatchesFlag
  by_cases h1 : strContains (i.nodeType.getD ("Unknown")) ("Hash") = true <;>
    by_cases h2 : i.hashBatches.getD 1 > 1 <;>
    simp [h1, h2]

/-- The fourth warning block fires exactly on claim condition 4. -/
theorem sortWarnings_length (i : NodeInfo) :
    (sortWarnings i).length = if externalSortFlag i then 1 else 0 := by
  unfold sortWarnings externalSortFlag
  by_cases h1 : i.nodeType.getD ("Unknown") = "Sort" <;>
    by_cases h2 : strContains (i.sortMethod.getD ("")).toLower ("external") = true <;>
    simp [h1, h2]

/-- The fifth warning block fires exactly on claim condition 5. -/
theorem loopWarnings_length (i : NodeInfo) :
    (loopWarnings i).length = if nestedLoopFlag i then 1 else 0 := by
  unfold loopWarnings nestedLoopFlag
  by_cases h1 : i.nodeType.getD ("Unknown") = "Nested Loop" <;>
    by_cases h2 : i.actualLoops.getD 1 > 1000 <;>
    simp [h1, h2]

/-- Per node, `_analyze_node` emits one warning per satisfied claim
condition. -/
theorem nodeWarnings_length (i : NodeInfo) :
    (nodeWarnings i).length = flaggedConditionCount i := by
  unfold nodeWarnings flaggedConditionCount
  simp only [List.length_append]
  rw [seqScanWarnings_length, ratioWarnings_length, hashWarnings_length,
    sortWarnings_length, loopWarnings_length]

mutual

/-- Over a whole plan tree, the number of emitted warnings equals the
number of satisfied claim conditions. -/
theorem analyzeNode_length_aux : ∀ n : PlanNode,
    (analyzeNode n).length = flaggedCount n
  | .mk i children => by
    rw [analyzeNode, flaggedCount, List.length_append, nodeWarnings_length,
      analyzeNodeList_length_aux children]

/-- List version of `analyzeNode_length_aux`. -/
theorem analyzeNodeList_length_aux : ∀ l : List PlanNode,
    (analyzeNodeList l).length = flaggedCountList l
  | [] => by rw [analyzeNodeList, flaggedCountList, List.length_nil]
  | n :: ns => by
    rw [analyzeNodeList, flaggedCountList, List.length_append,
      analyzeNode_length_aux n, analyzeNodeList_length_aux ns]

end

/-- Claim C7: in the recursive walk of a query-plan tree (children
under the `Plans` key), the plan analyzer emits warnings exactly for the
five claimed conditions — a `Seq Scan` with more than 10000 rows; an
actual-to-planned row ratio above 10 or below 0.1, evaluated only when
planned rows is positive so the division is guarded; a hash node with
more than one batch; a `Sort` node with an external sort method; a
`Nested Loop` with more than 1000 loops — one warning per satisfied
condition per node, and none otherwise. -/
theorem analyzeNode_warnings_characterized (n : PlanNode) :
    (analyzeNode n).length = flaggedCount n ∧
    (analyzeNode n ≠ [] ↔ flaggedCount n ≠ 0) := by
  refine ⟨analyzeNode_length_aux n, ?_⟩
  rw [← analyzeNode_length_aux n]
  simp [List.length_eq_zero]

/-- Witness for the amended C3: with a threshold of 10 and a cap of 2,
the cap holds and the 50%-candidate, a member of the output, meets the
threshold. -/
theorem selectRecommendations_spec_witness :
    (selectRecommendations 10 2
      [⟨"t", ["a"], some 50, 10⟩, ⟨"t", ["b"], some 20, 10⟩,
       ⟨"t", ["c"], some 5, 10⟩]).length ≤ 2 ∧
    (10 : ℚ) ≤ improvementKey ⟨"t", ["a"], some 50, 10⟩ :=
  ⟨(selectRecommendations_spec 10 2
      [⟨"t", ["a"], some 50, 10⟩, ⟨"t", ["b"], some 20, 10⟩,
       ⟨"t", ["c"], some 5, 10⟩]).2.2.1,
   (selectRecommendations_spec 10 2
      [⟨"t", ["a"], some 50, 10⟩, ⟨"t", ["b"], some 20, 10⟩,
       ⟨"t", ["c"], some 5, 10⟩]).1 ⟨"t", ["a"], some 50, 10⟩ (by decide)⟩

/-- A concrete plan tree: a sequential scan of 50000 rows under a root
whose fields raise no warning. -/
def seqScanExampleTree : PlanNode :=
  .mk { nodeType := some ("Gather"), relationName := none, filterCond := none,
        actualRows := some 50000, planRows := none, hashBatches := none,
        sortMethod := none, actualLoops := none, totalCost := none }
    [.mk { nodeType := some ("Seq Scan"), relationName := some ("orders"),
           filterCond := none, actualRows := some 50000, planRows := none,
           hashBatches := none, sortMethod := none, actualLoops := none,
           totalCost := none } []]

/-- Witness for C7: the example tree's warning count matches its flagged
condition count (one sequential-scan warning). -/
theorem analyzeNode_warnings_characterized_witness :
    (analyzeNode seqScanExampleTree).length = flaggedCount seqScanExampleTree ∧
    flaggedCount seqScanExampleTree = 1 :=
  ⟨(analyzeNode_warnings_characterized seqScanExampleTree).1, by
    simp only [seqScanExampleTree, flaggedCount, flaggedCountList]
    decide⟩

end PgTuner
